import Mathlib

/-!
Shallow embedding of the trusch/deadman-switch watchdog.

Time is modelled as `Int` nanoseconds on an arbitrary axis; Go's zero
`time.Time` is the instant `0`.  Store records follow the in-memory
backend's map semantics (`map[string]time.Time`): an association list
with keyed insert/replace.  External effects whose results the code
branches on (store reads that may fail, enqueue/dispatch results,
election campaigns, watch streams) are passed in explicitly as
environment values, one per call site, in source order.
-/

/-- Errors the Go code distinguishes (`storage.ErrNotFound`,
`context.Canceled`, `context.DeadlineExceeded`, transport faults,
decode failures, `queue.ErrQueueEmpty`). -/
inductive GoErr where
  | notFound
  | contextCanceled
  | deadlineExceeded
  | transport (code : Nat)
  | decodeFailure
  | queueEmpty
  | other (msg : String)
deriving DecidableEq, Repr

deriving instance DecidableEq for Except

/-- Association-list map from keys to timestamps, mirroring Go's
`map[string]time.Time`. -/
abbrev TimeMap := List (String × Int)

namespace TimeMap

def get : TimeMap → String → Option Int
  | [], _ => none
  | (k', v) :: rest, k => if k' = k then some v else get rest k

def set : TimeMap → String → Int → TimeMap
  | [], k, v => [(k, v)]
  | (k', v') :: rest, k, v =>
      if k' = k then (k, v) :: rest else (k', v') :: set rest k v

def erase (m : TimeMap) (k : String) : TimeMap :=
  m.filter (fun kv => kv.1 ≠ k)

theorem get_set_self (m : TimeMap) (k : String) (v : Int) :
    (m.set k v).get k = some v := by
  induction m with
  | nil => simp [get, set]
  | cons kv rest ih =>
      by_cases h : kv.1 = k
      · simp [set, h, get]
      · simp [set, h, get, ih]

theorem get_erase_self (m : TimeMap) (k : String) :
    (m.erase k).get k = none := by
  induction m with
  | nil => simp [get, erase]
  | cons kv rest ih =>
      by_cases h : kv.1 = k
      · simpa [erase, h] using ih
      · simpa [erase, h, get] using ih

end TimeMap

/-- `config.NotificationType` (`"webhook"` / `"slack"`). -/
inductive NotificationType where
  | webhook
  | slack
deriving DecidableEq, Repr

/-- `config.NotificationConfig`: a type tag plus an opaque payload
(the Go field is `interface{}`; the claims never inspect it). -/
structure NotificationConfig where
  type : NotificationType
  payload : String
deriving DecidableEq, Repr

/-- `config.ServiceConfig`. -/
structure ServiceConfig where
  id : String
  token : String
  timeout : Int
  debounce : Int
  alertNotifications : List NotificationConfig
  recoveryNotifications : List NotificationConfig
deriving DecidableEq, Repr

/-- The domain-record part of the store, shared by checker, notifier
and ping handler: `heartbeats/`, `alarms/` and `lastMessage/`
namespaces. -/
structure Store where
  heartbeats : TimeMap
  alarms : TimeMap
  lastMessage : TimeMap
deriving DecidableEq, Repr

namespace Store

def setLastHeartbeat (st : Store) (id : String) (t : Int) : Store :=
  { st with heartbeats := st.heartbeats.set id t }

def setAlarmActiveSince (st : Store) (id : String) (t : Int) : Store :=
  { st with alarms := st.alarms.set id t }

def clearAlarm (st : Store) (id : String) : Store :=
  { st with alarms := st.alarms.erase id }

def setLastMessageSendTimestamp (st : Store) (id : String) (t : Int) : Store :=
  { st with lastMessage := st.lastMessage.set id t }

end Store

/-! ## Checker (`pkg/checker/checker.go`) -/

/-- Results of the external calls `checkDeadlineOfService` makes, in
source order, plus the current time. -/
structure CheckEnv where
  /-- wall clock used for `time.Since` and `time.Now()` -/
  now : Int
  /-- result of `c.store.GetLastHeartbeat(ctx, svc.ID)` -/
  hb : Except GoErr Int
  /-- result of `c.store.GetAlarmActiveSince(ctx, svc.ID)` -/
  alarm : Except GoErr Int
  /-- result of `c.store.SetAlarmActiveSince(ctx, svc.ID, now)` (logged only) -/
  setAlarmRes : Option GoErr
  /-- result of `c.notifier.SendAlerts(ctx, svc)` -/
  alertsRes : Option GoErr
deriving DecidableEq, Repr

/-- Observable outcome of one `checkDeadlineOfService` call. -/
structure CheckOutcome where
  /-- did the overdue branch run -/
  overdue : Bool
  /-- `some v` iff `SetAlarmActiveSince` was called, with the written value -/
  alarmWrite : Option Int
  /-- was `SendAlerts` called -/
  alertsCalled : Bool
  /-- the function's return value -/
  ret : Option GoErr
deriving DecidableEq, Repr

/-- `Checker.checkDeadlineOfService`.  On a heartbeat read error the Go
code logs and keeps the zero-value `t`; the alarm is written only when
`GetAlarmActiveSince` returned exactly `storage.ErrNotFound`; a failed
alarm write is logged and does not change control flow; the return
value is the `SendAlerts` result. -/
def checkDeadlineOfService (svc : ServiceConfig) (env : CheckEnv) : CheckOutcome :=
  let t : Int := match env.hb with
    | .ok t => t
    | .error _ => 0
  if env.now - t > svc.timeout then
    let alarmWrite : Option Int := match env.alarm with
      | .error GoErr.notFound => some env.now
      | _ => none
    { overdue := true
      alarmWrite := alarmWrite
      alertsCalled := true
      ret := env.alertsRes }
  else
    { overdue := false, alarmWrite := none, alertsCalled := false, ret := none }

/-- `Checker.checkDeadlines`: the channel loop over the service-config
sequence; a per-service error is logged and the loop continues. -/
def checkDeadlines : List (ServiceConfig × CheckEnv) → List CheckOutcome
  | [] => []
  | (svc, env) :: rest =>
      checkDeadlineOfService svc env :: checkDeadlines rest

theorem checkDeadlines_length (xs : List (ServiceConfig × CheckEnv)) :
    (checkDeadlines xs).length = xs.length := by
  induction xs with
  | nil => rfl
  | cons x rest ih => simpa [checkDeadlines] using ih

theorem checkDeadlines_getElem (xs : List (ServiceConfig × CheckEnv)) (i : Nat) :
    (checkDeadlines xs)[i]? = xs[i]?.map (fun p => checkDeadlineOfService p.1 p.2) := by
  induction xs generalizing i with
  | nil => simp [checkDeadlines]
  | cons x rest ih =>
      cases i with
      | zero => simp [checkDeadlines]
      | succ j => simpa [checkDeadlines] using ih j

/-- C1: during a checker tick, each service's check reads the last
heartbeat treating a read error (in particular NotFound) as the zero
timestamp; when overdue it writes `alarms[s.id] = now` exactly when no
alarm record exists (an existing alarm is left alone), a failing alarm
write does not change the outcome, `SendAlerts` is called and its error
becomes the per-service result; and every service config in the
sequence is processed regardless of earlier per-service errors. -/
theorem C1_checker_tick :
    (∀ (svc : ServiceConfig) (env : CheckEnv) (e : GoErr), env.hb = .error e →
        checkDeadlineOfService svc env
          = checkDeadlineOfService svc { env with hb := .ok 0 }) ∧
    (∀ (svc : ServiceConfig) (env : CheckEnv),
        env.hb = .error GoErr.notFound → env.now - 0 > svc.timeout →
        (checkDeadlineOfService svc env).overdue = true) ∧
    (∀ (svc : ServiceConfig) (env : CheckEnv),
        (checkDeadlineOfService svc env).overdue = true →
        env.alarm = .error GoErr.notFound →
        (checkDeadlineOfService svc env).alarmWrite = some env.now) ∧
    (∀ (svc : ServiceConfig) (env : CheckEnv) (t' : Int),
        (checkDeadlineOfService svc env).overdue = true →
        env.alarm = .ok t' →
        (checkDeadlineOfService svc env).alarmWrite = none) ∧
    (∀ (svc : ServiceConfig) (env : CheckEnv) (e : GoErr),
        checkDeadlineOfService svc { env with setAlarmRes := some e }
        = checkDeadlineOfService svc { env with setAlarmRes := none }) ∧
    (∀ (svc : ServiceConfig) (env : CheckEnv),
        (checkDeadlineOfService svc env).overdue = true →
        (checkDeadlineOfService svc env).alertsCalled = true ∧
        (checkDeadlineOfService svc env).ret = env.alertsRes) ∧
    (∀ (xs : List (ServiceConfig × CheckEnv)) (i : Nat), (checkDeadlines xs)[i]?
        = xs[i]?.map (fun p => checkDeadlineOfService p.1 p.2)) := by
  refine ⟨?_, ?_, ?_, ?_, ?_, ?_, ?_⟩
  · intro svc env e h
    simp [checkDeadlineOfService, h]
  · intro svc env h hnow
    have hnow' : svc.timeout < env.now := by omega
    simp [checkDeadlineOfService, h, hnow']
  · intro svc env hover halarm
    by_cases hc : env.now - (match env.hb with | .ok t => t | .error _ => 0) > svc.timeout
    · simp [checkDeadlineOfService, hc, halarm]
    · simp [checkDeadlineOfService, hc] at hover
  · intro svc env t' hover halarm
    by_cases hc : env.now - (match env.hb with | .ok t => t | .error _ => 0) > svc.timeout
    · simp [checkDeadlineOfService, hc, halarm]
    · simp [checkDeadlineOfService, hc] at hover
  · intro svc env e
    simp [checkDeadlineOfService]
  · intro svc env hover
    by_cases hc : env.now - (match env.hb with | .ok t => t | .error _ => 0) > svc.timeout
    · simp [checkDeadlineOfService, hc]
    · simp [checkDeadlineOfService, hc] at hover
  · exact checkDeadlines_getElem

/-- Concrete checker example: a never-pinged service with a 10ns
timeout, checked at time 100, with no prior alarm and a failing alert
send. -/
def svcC1 : ServiceConfig :=
  { id := "svc-1", token := "", timeout := 10, debounce := 0
    alertNotifications := [{ type := .webhook, payload := "w" }]
    recoveryNotifications := [] }

def envC1 : CheckEnv :=
  { now := 100, hb := .error GoErr.notFound, alarm := .error GoErr.notFound
    setAlarmRes := none, alertsRes := some (GoErr.transport 7) }

theorem C1_checker_tick_witness :
    (checkDeadlineOfService svcC1 envC1).overdue = true ∧
    (checkDeadlineOfService svcC1 envC1).alarmWrite = some 100 ∧
    (checkDeadlineOfService svcC1 envC1).ret = some (GoErr.transport 7) := by
  have hover : (checkDeadlineOfService svcC1 envC1).overdue = true :=
    C1_checker_tick.2.1 svcC1 envC1 rfl (by decide)
  refine ⟨hover, ?_, ?_⟩
  · exact C1_checker_tick.2.2.1 svcC1 envC1 hover rfl
  · exact (C1_checker_tick.2.2.2.2.2.1 svcC1 envC1 hover).2

/-! ## Notifier (`pkg/notifier/notifier.go`) -/

/-- Observable outcome of one `SendAlerts` / `SendRecoveryNotifications`
call: the specs whose enqueue/dispatch was attempted (in order, up to
and including a failing one), the store afterwards, and the returned
error. -/
structure NotifyResult where
  attempted : List NotificationConfig
  store : Store
  ret : Option GoErr
deriving DecidableEq, Repr

/-- The per-spec loop body shared by both send paths: each iteration
enqueues (queue wired) or dispatches inline; `outcome i` is the result
of the i-th attempt, and the first failure returns immediately without
touching the remaining specs. -/
def runSpecs (outcome : Nat → Option GoErr) :
    List NotificationConfig → Nat → List NotificationConfig × Option GoErr
  | [], _ => ([], none)
  | n :: rest, i =>
      match outcome i with
      | some e => ([n], some e)
      | none =>
          let r := runSpecs outcome rest (i + 1)
          (n :: r.1, r.2)

/-- The debounce gate at the top of `SendAlerts`: `service.Debounce > 0`,
the `lastMessage` read succeeded, and
`time.Now().Add(-debounce).Before(lastMessageSend)`. -/
def alertsDebounced (now : Int) (svc : ServiceConfig) (st : Store) : Bool :=
  svc.debounce > 0 &&
    (match st.lastMessage.get svc.id with
      | some lm => decide (now - svc.debounce < lm)
      | none => false)

/-- `defaultNotifierType.SendAlerts`: debounce gate, per-spec loop over
`service.AlertNotifications`, then `SetLastMessageSendTimestamp`. -/
def SendAlerts (now : Int) (svc : ServiceConfig) (st : Store)
    (outcome : Nat → Option GoErr) : NotifyResult :=
  if alertsDebounced now svc st then
    { attempted := [], store := st, ret := none }
  else
    let r := runSpecs outcome svc.alertNotifications 0
    match r.2 with
    | some e => { attempted := r.1, store := st, ret := some e }
    | none =>
        { attempted := r.1
          store := st.setLastMessageSendTimestamp svc.id now
          ret := none }

/-- `defaultNotifierType.SendRecoveryNotifications`: per-spec loop over
`service.RecoveryNotifications` (no debounce gate), then
`SetLastMessageSendTimestamp`. -/
def SendRecoveryNotifications (now : Int) (svc : ServiceConfig) (st : Store)
    (outcome : Nat → Option GoErr) : NotifyResult :=
  let r := runSpecs outcome svc.recoveryNotifications 0
  match r.2 with
  | some e => { attempted := r.1, store := st, ret := some e }
  | none =>
      { attempted := r.1
        store := st.setLastMessageSendTimestamp svc.id now
        ret := none }

theorem runSpecs_all_none (outcome : Nat → Option GoErr)
    (l : List NotificationConfig) (s : Nat) (h : ∀ i, outcome i = none) :
    runSpecs outcome l s = (l, none) := by
  induction l generalizing s with
  | nil => rfl
  | cons n rest ih => simp [runSpecs, h, ih]

theorem runSpecs_fail (outcome : Nat → Option GoErr) :
    ∀ (l : List NotificationConfig) (s i : Nat) (e : GoErr),
      i < l.length →
      (∀ j, j < i → outcome (s + j) = none) →
      outcome (s + i) = some e →
      runSpecs outcome l s = (l.take (i + 1), some e) := by
  intro l
  induction l with
  | nil =>
      intro s i e hi
      simp at hi
  | cons n rest ih =>
      intro s i e hi hnone hfail
      cases i with
      | zero =>
          have h0 : outcome s = some e := by simpa using hfail
          simp [runSpecs, h0]
      | succ k =>
          have h0 : outcome s = none := by simpa using hnone 0 (Nat.succ_pos k)
          have hrec : runSpecs outcome rest (s + 1) = (rest.take (k + 1), some e) := by
            refine ih (s + 1) k e (by simpa using Nat.lt_of_succ_lt_succ hi) ?_ ?_
            · intro j hj
              have hx : (s + 1) + j = s + (j + 1) := by omega
              rw [hx]
              exact hnone (j + 1) (by omega)
            · have hx : (s + 1) + k = s + (k + 1) := by omega
              rw [hx]
              exact hfail
          simp [runSpecs, h0, hrec]

/-- C2: with `debounce > 0`, an existing `lastMessage` record satisfying
`now - debounce < lastMessage` makes `SendAlerts` emit nothing (no spec
attempted, store untouched) and return success; and
`SendRecoveryNotifications` never consults the store at all before
emitting — its attempted specs and return value are the same for any
two stores, and with successful attempts it emits the full recovery
list, so no debounce suppression can occur. -/
theorem C2_debounce_gate :
    (∀ (now lm : Int) (svc : ServiceConfig) (st : Store)
        (outcome : Nat → Option GoErr),
        svc.debounce > 0 →
        st.lastMessage.get svc.id = some lm →
        now - svc.debounce < lm →
        SendAlerts now svc st outcome
          = { attempted := [], store := st, ret := none }) ∧
    (∀ (now : Int) (svc : ServiceConfig) (st₁ st₂ : Store)
        (outcome : Nat → Option GoErr),
        (SendRecoveryNotifications now svc st₁ outcome).attempted
          = (SendRecoveryNotifications now svc st₂ outcome).attempted ∧
        (SendRecoveryNotifications now svc st₁ outcome).ret
          = (SendRecoveryNotifications now svc st₂ outcome).ret) ∧
    (∀ (now : Int) (svc : ServiceConfig) (st : Store)
        (outcome : Nat → Option GoErr), (∀ i, outcome i = none) →
        (SendRecoveryNotifications now svc st outcome).attempted
          = svc.recoveryNotifications) := by
  refine ⟨?_, ?_, ?_⟩
  · intro now lm svc st outcome hdeb hget hwin
    have hgate : alertsDebounced now svc st = true := by
      simp [alertsDebounced, hget, hdeb, hwin]
    simp [SendAlerts, hgate]
  · intro now svc st₁ st₂ outcome
    cases h : (runSpecs outcome svc.recoveryNotifications 0).2 with
    | none => simp [SendRecoveryNotifications, h]
    | some e => simp [SendRecoveryNotifications, h]
  · intro now svc st outcome hall
    simp [SendRecoveryNotifications, runSpecs_all_none outcome _ 0 hall]

/-- Concrete notifier example shared by the debounce witnesses. -/
def svcDeb : ServiceConfig :=
  { id := "svc-deb", token := "", timeout := 10, debounce := 60
    alertNotifications := [{ type := .webhook, payload := "w" }]
    recoveryNotifications :=
      [{ type := .slack, payload := "s" }, { type := .webhook, payload := "w" }] }

def stDeb : Store :=
  { heartbeats := [], alarms := [], lastMessage := [("svc-deb", 100)] }

theorem C2_debounce_gate_witness :
    SendAlerts 120 svcDeb stDeb (fun _ => none)
      = { attempted := [], store := stDeb, ret := none } ∧
    (SendRecoveryNotifications 120 svcDeb stDeb (fun _ => none)).attempted
      = svcDeb.recoveryNotifications := by
  constructor
  · exact C2_debounce_gate.1 120 100 svcDeb stDeb (fun _ => none)
      (by decide) (by decide) (by decide)
  · exact C2_debounce_gate.2.2 120 svcDeb stDeb (fun _ => none) (fun i => rfl)

/-- C9: a successful `SendRecoveryNotifications` at time `r` writes
`lastMessage[service.id] = r` — the very record `SendAlerts` consults —
so with `debounce > 0` any alert attempt at a time `t` with
`t - debounce < r` is suppressed (nothing attempted, store unchanged,
success returned). -/
theorem C9_recovery_consumes_debounce :
    ∀ (r t : Int) (svc : ServiceConfig) (st : Store)
      (out₁ out₂ : Nat → Option GoErr),
      svc.debounce > 0 →
      (SendRecoveryNotifications r svc st out₁).ret = none →
      t - svc.debounce < r →
      (SendRecoveryNotifications r svc st out₁).store.lastMessage.get svc.id
        = some r ∧
      SendAlerts t svc (SendRecoveryNotifications r svc st out₁).store out₂
        = { attempted := []
            store := (SendRecoveryNotifications r svc st out₁).store
            ret := none } := by
  intro r t svc st out₁ out₂ hdeb hok hwin
  have hget : (SendRecoveryNotifications r svc st out₁).store.lastMessage.get svc.id
      = some r := by
    cases h : (runSpecs out₁ svc.recoveryNotifications 0).2 with
    | none =>
        simp [SendRecoveryNotifications, h, Store.setLastMessageSendTimestamp,
          TimeMap.get_set_self]
    | some e => simp [SendRecoveryNotifications, h] at hok
  refine ⟨hget, ?_⟩
  have hgate : alertsDebounced t svc (SendRecoveryNotifications r svc st out₁).store
      = true := by
    simp [alertsDebounced, hget, hdeb, hwin]
  simp [SendAlerts, hgate]

theorem C9_recovery_consumes_debounce_witness :
    SendAlerts 130 svcDeb
        (SendRecoveryNotifications 90 svcDeb stDeb (fun _ => none)).store
        (fun _ => none)
      = { attempted := []
          store := (SendRecoveryNotifications 90 svcDeb stDeb (fun _ => none)).store
          ret := none } :=
  (C9_recovery_consumes_debounce 90 130 svcDeb stDeb (fun _ => none) (fun _ => none)
    (by decide) (by decide) (by decide)).2

/-- C10: when the i-th enqueue/dispatch attempt of a non-debounced
`SendAlerts` fails (all earlier ones having succeeded), the call
returns that error at once, only the first `i+1` specs were attempted,
and the store — in particular `lastMessage[service.id]` — is unchanged. -/
theorem C10_alert_failure_stops_and_preserves_debounce :
    ∀ (now : Int) (svc : ServiceConfig) (st : Store)
      (outcome : Nat → Option GoErr) (i : Nat) (e : GoErr),
      alertsDebounced now svc st = false →
      i < svc.alertNotifications.length →
      (∀ j, j < i → outcome j = none) →
      outcome i = some e →
      SendAlerts now svc st outcome
        = { attempted := svc.alertNotifications.take (i + 1)
            store := st
            ret := some e } := by
  intro now svc st outcome i e hgate hi hnone hfail
  have hrun : runSpecs outcome svc.alertNotifications 0
      = (svc.alertNotifications.take (i + 1), some e) := by
    refine runSpecs_fail outcome svc.alertNotifications 0 i e hi ?_ ?_
    · intro j hj
      simpa using hnone j hj
    · simpa using hfail
  simp [SendAlerts, hgate, hrun]

theorem C10_alert_failure_witness :
    SendAlerts 120 svcDeb { heartbeats := [], alarms := [], lastMessage := [] }
        (fun i => if i = 0 then some (GoErr.transport 9) else none)
      = { attempted := [{ type := .webhook, payload := "w" }]
          store := { heartbeats := [], alarms := [], lastMessage := [] }
          ret := some (GoErr.transport 9) } :=
  C10_alert_failure_stops_and_preserves_debounce 120 svcDeb
    { heartbeats := [], alarms := [], lastMessage := [] }
    (fun i => if i = 0 then some (GoErr.transport 9) else none) 0
    (GoErr.transport 9) (by decide) (by decide)
    (fun j hj => by omega) (by decide)

/-! ## HTTP ping handler (`pkg/server/server.go`) -/

/-- Observable outcome of one `Server.handlePing` request: HTTP status,
response body, store afterwards, and whether
`notifier.SendRecoveryNotifications` was called (with which config). -/
structure PingResult where
  status : Nat
  body : String
  store : Store
  recoveryCalledWith : Option ServiceConfig
deriving DecidableEq, Repr

/-- `Server.updateLastHeartbeat`: write `lastHeartbeat[svc.ID] = now`,
then if `GetAlarmActiveSince` succeeds, `ClearAlarm` and call
`SendRecoveryNotifications` (whose own store writes are recorded by the
notifier model, not inlined here). -/
def updateLastHeartbeat (now : Int) (svc : ServiceConfig) (st : Store) :
    Store × Option ServiceConfig :=
  let st1 := st.setLastHeartbeat svc.id now
  match st1.alarms.get svc.id with
  | some _ => (st1.clearAlarm svc.id, some svc)
  | none => (st1, none)

/-- `Server.handlePing`: load the config for the path's service id (any
load error answers 404 with no write); a non-empty configured token
must equal the query token exactly or the answer is 401; otherwise the
heartbeat is recorded via `updateLastHeartbeat` and 200 is returned. -/
def handlePing (serviceID queryToken : String) (now : Int)
    (cfgRes : Except GoErr ServiceConfig) (st : Store) : PingResult :=
  match cfgRes with
  | .error _ =>
      { status := 404, body := "nice to meet you stranger"
        store := st, recoveryCalledWith := none }
  | .ok cfg =>
      if cfg.token ≠ "" ∧ queryToken ≠ cfg.token then
        { status := 401
          body := "you might wish to supply a correct token for this request"
          store := st, recoveryCalledWith := none }
      else
        let r := updateLastHeartbeat now cfg st
        { status := 200
          body := "got it " ++ serviceID ++ ", you are still alive"
          store := r.1, recoveryCalledWith := r.2 }

/-- C3: an unknown service id answers 404 and writes nothing; a stored
config with a non-empty token rejects any non-matching query token with
401 (writing nothing); on success the handler records
`lastHeartbeat[id] = now` and, exactly when an alarm record exists,
deletes it and calls `SendRecoveryNotifications` with the config. -/
theorem C3_ping_handler :
    (∀ (sid qt : String) (now : Int) (e : GoErr) (st : Store),
        handlePing sid qt now (.error e) st
          = { status := 404, body := "nice to meet you stranger"
              store := st, recoveryCalledWith := none }) ∧
    (∀ (sid qt : String) (now : Int) (cfg : ServiceConfig) (st : Store),
        cfg.token ≠ "" → qt ≠ cfg.token →
        (handlePing sid qt now (.ok cfg) st).status = 401 ∧
        (handlePing sid qt now (.ok cfg) st).store = st ∧
        (handlePing sid qt now (.ok cfg) st).recoveryCalledWith = none) ∧
    (∀ (sid qt : String) (now : Int) (cfg : ServiceConfig) (st : Store),
        (cfg.token = "" ∨ qt = cfg.token) →
        (handlePing sid qt now (.ok cfg) st).status = 200 ∧
        (handlePing sid qt now (.ok cfg) st).store.heartbeats.get cfg.id
          = some now ∧
        ((∃ a, st.alarms.get cfg.id = some a) →
          (handlePing sid qt now (.ok cfg) st).store.alarms.get cfg.id = none ∧
          (handlePing sid qt now (.ok cfg) st).recoveryCalledWith = some cfg) ∧
        (st.alarms.get cfg.id = none →
          (handlePing sid qt now (.ok cfg) st).recoveryCalledWith = none)) := by
  refine ⟨?_, ?_, ?_⟩
  · intro sid qt now e st
    rfl
  · intro sid qt now cfg st htok hqt
    simp [handlePing, htok, hqt]
  · intro sid qt now cfg st hok
    have hcond : ¬ (cfg.token ≠ "" ∧ qt ≠ cfg.token) := by
      rcases hok with h | h <;> simp [h]
    have halarm_set :
        (st.setLastHeartbeat cfg.id now).alarms = st.alarms := rfl
    refine ⟨by simp [handlePing, hcond], ?_, ?_, ?_⟩
    · simp only [handlePing, hcond, if_neg, updateLastHeartbeat]
      cases h : (st.setLastHeartbeat cfg.id now).alarms.get cfg.id with
      | some a =>
          simp [h, Store.clearAlarm, Store.setLastHeartbeat,
            TimeMap.get_set_self]
      | none =>
          simp [h, Store.setLastHeartbeat, TimeMap.get_set_self]
    · rintro ⟨a, ha⟩
      have h : (st.setLastHeartbeat cfg.id now).alarms.get cfg.id = some a := by
        rw [halarm_set]; exact ha
      simp [handlePing, hcond, updateLastHeartbeat, h, ha, Store.clearAlarm,
        Store.setLastHeartbeat, TimeMap.get_erase_self]
    · intro ha
      have h : (st.setLastHeartbeat cfg.id now).alarms.get cfg.id = none := by
        rw [halarm_set]; exact ha
      simp [handlePing, hcond, updateLastHeartbeat, h, ha]

/-- Concrete ping example: token-protected service with an active alarm. -/
def svcPing : ServiceConfig :=
  { id := "svc-p", token := "abc", timeout := 10, debounce := 0
    alertNotifications := [], recoveryNotifications := [] }

def stPing : Store :=
  { heartbeats := [("svc-p", 5)], alarms := [("svc-p", 7)], lastMessage := [] }

theorem C3_ping_handler_witness :
    ((handlePing "svc-p" "xyz" 50 (.ok svcPing) stPing).status = 401 ∧
      (handlePing "svc-p" "xyz" 50 (.ok svcPing) stPing).store = stPing) ∧
    ((handlePing "svc-p" "abc" 50 (.ok svcPing) stPing).status = 200 ∧
      (handlePing "svc-p" "abc" 50 (.ok svcPing) stPing).store.heartbeats.get "svc-p"
        = some 50 ∧
      (handlePing "svc-p" "abc" 50 (.ok svcPing) stPing).store.alarms.get "svc-p"
        = none ∧
      (handlePing "svc-p" "abc" 50 (.ok svcPing) stPing).recoveryCalledWith
        = some svcPing) := by
  constructor
  · have h := C3_ping_handler.2.1 "svc-p" "xyz" 50 svcPing stPing
      (by decide) (by decide)
    exact ⟨h.1, h.2.1⟩
  · have h := C3_ping_handler.2.2 "svc-p" "abc" 50 svcPing stPing (Or.inr rfl)
    have halarm := h.2.2.1 ⟨7, rfl⟩
    exact ⟨h.1, h.2.1, halarm.1, halarm.2⟩

/-! ## Coordination (`pkg/concurrency/concurrency.go`,
`etcdClient.IsLeader`) and the checker's leader gate. -/

/-- Result of the bounded (1-second) `election.Campaign` call. -/
inductive CampaignResult where
  | success
  | errored (e : GoErr)
deriving DecidableEq, Repr

/-- `etcdClient.IsLeader`: if the election's current key equals the
requested slot, return true without campaigning; otherwise campaign
under a 1-second deadline and map exactly `context.Canceled` to
`(false, nil)` — every other campaign error, including
`context.DeadlineExceeded`, is returned as an error. -/
def IsLeader (electionKey slot : String) (campaign : CampaignResult) :
    Bool × Option GoErr :=
  if electionKey = slot then (true, none)
  else
    match campaign with
    | .success => (true, none)
    | .errored e =>
        if e = GoErr.contextCanceled then (false, none) else (false, some e)

/-- `Checker.checkDeadlinesIfLeader` with a concurrency client wired:
an `IsLeader` error equal to `context.DeadlineExceeded` is swallowed
(tick skipped, nil returned); other errors are returned; a false leader
answer skips the tick; only a true answer runs `checkDeadlines`, whose
result is returned.  The pair is (returned error, did the check run). -/
def checkDeadlinesIfLeader (leaderRes : Bool × Option GoErr)
    (checkRes : Option GoErr) : Option GoErr × Bool :=
  match leaderRes with
  | (_, some e) =>
      if e = GoErr.deadlineExceeded then (none, false) else (some e, false)
  | (false, none) => (none, false)
  | (true, none) => (checkRes, true)

/-- C4 counterexample: with the election key not matching the slot and
the campaign failing with `context.DeadlineExceeded`, `IsLeader`
returns `false` together with that error — not "false with no error"
as claimed, and `DeadlineExceeded` is not a transport fault. -/
theorem C4_counterexample :
    IsLeader "/deadman-switch-leader/694d" "/deadman-switch/check-leader"
        (.errored GoErr.deadlineExceeded)
      = (false, some GoErr.deadlineExceeded) ∧
    some GoErr.deadlineExceeded ≠ (none : Option GoErr) := by
  constructor
  · rfl
  · simp

/-- C4 amended: holding the slot returns true with no campaign; a
cancelled campaign returns false with no error; a deadline-exceeded
campaign returns false with the `DeadlineExceeded` error, which the
checker's caller swallows so the tick is skipped without error; any
other campaign error is passed through. -/
theorem C4_isLeader_amended :
    (∀ slot campaign, IsLeader slot slot campaign = (true, none)) ∧
    (∀ (key slot : String), key ≠ slot →
        IsLeader key slot (.errored GoErr.contextCanceled) = (false, none)) ∧
    (∀ (key slot : String), key ≠ slot →
        IsLeader key slot (.errored GoErr.deadlineExceeded)
          = (false, some GoErr.deadlineExceeded)) ∧
    (∀ (checkRes : Option GoErr),
        checkDeadlinesIfLeader (false, some GoErr.deadlineExceeded) checkRes
          = (none, false)) ∧
    (∀ (key slot : String) (n : Nat), key ≠ slot →
        IsLeader key slot (.errored (GoErr.transport n))
          = (false, some (GoErr.transport n))) := by
  refine ⟨?_, ?_, ?_, ?_, ?_⟩
  · intro slot campaign
    simp [IsLeader]
  · intro key slot h
    simp [IsLeader, h]
  · intro key slot h
    simp [IsLeader, h]
  · intro checkRes
    rfl
  · intro key slot n h
    simp [IsLeader, h]

theorem C4_isLeader_amended_witness :
    IsLeader "/deadman-switch-leader/694d" "/deadman-switch/check-leader"
        (.errored GoErr.contextCanceled) = (false, none) ∧
    checkDeadlinesIfLeader (false, some GoErr.deadlineExceeded)
        (some (GoErr.transport 3)) = (none, false) :=
  ⟨C4_isLeader_amended.2.1 "/deadman-switch-leader/694d"
      "/deadman-switch/check-leader" (by decide),
    C4_isLeader_amended.2.2.2.1 (some (GoErr.transport 3))⟩

/-! ## Timestamp serialization (`pkg/storage/file.go`,
`storage/etcd.go`) -/

/-- A Go `time.Time` instant: whole seconds plus a nanosecond part in
`[0, 1e9)`. -/
structure GoTime where
  sec : Int
  nsec : Nat
deriving DecidableEq, Repr

/-- Go `t.Format(time.RFC3339)` as used by every timestamp write in
both the file and the etcd backend.  The `time.RFC3339` layout
(`"2006-01-02T15:04:05Z07:00"`) carries no fractional-second digits, so
the string denotes the instant truncated to whole seconds; we model the
stored string by the instant it denotes. -/
def formatRFC3339 (t : GoTime) : Int := t.sec

/-- Go `time.Parse(time.RFC3339, s)` as used by every timestamp read in
both backends: the parsed instant has a zero nanosecond part. -/
def parseRFC3339 (s : Int) : GoTime := { sec := s, nsec := 0 }

/-! The three timestamp namespaces of `fileStorage` and `etcdStorage`
(`heartbeats/`, `alarms/`, `lastMessage/`): writes store
`t.Format(time.RFC3339)` under the prefixed key, reads parse it back;
a missing key surfaces as NotFound. -/
namespace rfc3339Storage

def SetLastHeartbeat (db : TimeMap) (key : String) (t : GoTime) : TimeMap :=
  db.set ("heartbeats/" ++ key) (formatRFC3339 t)

def GetLastHeartbeat (db : TimeMap) (key : String) : Except GoErr GoTime :=
  match db.get ("heartbeats/" ++ key) with
  | none => .error GoErr.notFound
  | some s => .ok (parseRFC3339 s)

def SetAlarmActiveSince (db : TimeMap) (key : String) (t : GoTime) : TimeMap :=
  db.set ("alarms/" ++ key) (formatRFC3339 t)

def GetAlarmActiveSince (db : TimeMap) (key : String) : Except GoErr GoTime :=
  match db.get ("alarms/" ++ key) with
  | none => .error GoErr.notFound
  | some s => .ok (parseRFC3339 s)

def SetLastMessageSendTimestamp (db : TimeMap) (key : String) (t : GoTime) : TimeMap :=
  db.set ("lastMessage/" ++ key) (formatRFC3339 t)

def GetLastMessageSendTimestamp (db : TimeMap) (key : String) : Except GoErr GoTime :=
  match db.get ("lastMessage/" ++ key) with
  | none => .error GoErr.notFound
  | some s => .ok (parseRFC3339 s)

end rfc3339Storage

/-- Modelled from the spec's words, for comparison only: a
nanosecond-precision (RFC-3339-nano) serialization would keep the full
instant. -/
def specFormatRFC3339Nano (t : GoTime) : Int × Nat := (t.sec, t.nsec)

/-- C5 counterexample: storing the instant 100s + 0.5s as a last
heartbeat and reading it back yields 100s exactly — the sub-second
component is lost, so the set-then-get round trip does not return `t`. -/
theorem C5_counterexample :
    rfc3339Storage.GetLastHeartbeat
        (rfc3339Storage.SetLastHeartbeat [] "svc-1"
          { sec := 100, nsec := 500000000 }) "svc-1"
      = .ok { sec := 100, nsec := 0 } ∧
    ({ sec := 100, nsec := 0 } : GoTime) ≠ { sec := 100, nsec := 500000000 } := by
  exact ⟨rfl, by decide⟩

/-- C5 amended: every persisted timestamp is serialized as an RFC-3339
string with *second* precision, so setting then getting any of the
three record kinds returns `t` truncated to whole seconds; the round
trip returns `t` itself exactly when `t` has no sub-second component. -/
theorem C5_rfc3339_second_precision :
    ∀ (db : TimeMap) (key : String) (t : GoTime),
      rfc3339Storage.GetLastHeartbeat
          (rfc3339Storage.SetLastHeartbeat db key t) key
        = .ok { sec := t.sec, nsec := 0 } ∧
      rfc3339Storage.GetAlarmActiveSince
          (rfc3339Storage.SetAlarmActiveSince db key t) key
        = .ok { sec := t.sec, nsec := 0 } ∧
      rfc3339Storage.GetLastMessageSendTimestamp
          (rfc3339Storage.SetLastMessageSendTimestamp db key t) key
        = .ok { sec := t.sec, nsec := 0 } ∧
      (t.nsec = 0 →
        rfc3339Storage.GetLastHeartbeat
            (rfc3339Storage.SetLastHeartbeat db key t) key = .ok t) := by
  intro db key t
  refine ⟨?_, ?_, ?_, ?_⟩
  · simp [rfc3339Storage.GetLastHeartbeat, rfc3339Storage.SetLastHeartbeat,
      TimeMap.get_set_self, formatRFC3339, parseRFC3339]
  · simp [rfc3339Storage.GetAlarmActiveSince, rfc3339Storage.SetAlarmActiveSince,
      TimeMap.get_set_self, formatRFC3339, parseRFC3339]
  · simp [rfc3339Storage.GetLastMessageSendTimestamp,
      rfc3339Storage.SetLastMessageSendTimestamp,
      TimeMap.get_set_self, formatRFC3339, parseRFC3339]
  · intro h0
    have : ({ sec := t.sec, nsec := 0 } : GoTime) = t := by
      cases t
      simp_all
    simp [rfc3339Storage.GetLastHeartbeat, rfc3339Storage.SetLastHeartbeat,
      TimeMap.get_set_self, formatRFC3339, parseRFC3339, this]

theorem C5_rfc3339_second_precision_witness :
    rfc3339Storage.GetLastHeartbeat
        (rfc3339Storage.SetLastHeartbeat [] "svc-1"
          { sec := 42, nsec := 0 }) "svc-1"
      = .ok { sec := 42, nsec := 0 } :=
  (C5_rfc3339_second_precision [] "svc-1" { sec := 42, nsec := 0 }).2.2.2 rfl

/-! ## Queue (`pkg/queue` etcd queue, `etcdQueue.Dequeue`) -/

/-- `notifier.notificationWrapper`, the task type carried by the queue. -/
structure notificationWrapper where
  Service : ServiceConfig
  Notification : NotificationConfig
  IsRecoveryMessage : Bool
deriving DecidableEq, Repr

/-- One queue item: (etcd key under `items/`, serialized JSON value). -/
abbrev QueueItem := String × String

/-- The kv returned by `Get(key, WithFirstKey()..., WithPrefix())`: the
item with the lexicographically smallest key, if any. -/
def firstKV : List QueueItem → Option QueueItem
  | [] => none
  | kv :: rest =>
      match firstKV rest with
      | none => some kv
      | some kv' => if kv'.1 < kv.1 then some kv' else some kv

/-- Deleting a key from the `items/` range. -/
def eraseKey (items : List QueueItem) (k : String) : List QueueItem :=
  items.filter (fun kv => kv.1 ≠ k)

/-- What the change-notification watch over the `items/` range yields:
either a put event's kv, or a closed stream. -/
inductive WatchResult where
  | delivered (kv : QueueItem)
  | closed
deriving DecidableEq, Repr

/-- Observable outcome of one `etcdQueue.Dequeue` call. -/
structure DequeueResult where
  lockAcquired : Bool
  ret : Except GoErr notificationWrapper
  itemsAfter : List QueueItem
deriving DecidableEq, Repr

/-- `etcdQueue.Dequeue`: acquire the queue consumer lock; `Get` the
first item under `items/`; if none, block on a watch of that range
(a closed stream is `ErrQueueEmpty`); unmarshal the item, then delete
its key and return the task.  `lockRes` / `getRes` are the results of
the lock and `Get` calls, `watch` the stream's behaviour, `unmarshal`
the JSON decoding of a stored value.  In the watch branch the delivered
kv has just been put into the range, so the range afterwards is the
items plus that kv minus the deleted key. -/
def Dequeue (lockRes : Option GoErr) (getRes : Option GoErr)
    (items : List QueueItem) (watch : WatchResult)
    (unmarshal : String → Except GoErr notificationWrapper) : DequeueResult :=
  match lockRes with
  | some e => { lockAcquired := false, ret := .error e, itemsAfter := items }
  | none =>
      match getRes with
      | some e => { lockAcquired := true, ret := .error e, itemsAfter := items }
      | none =>
          match firstKV items with
          | some kv =>
              (match unmarshal kv.2 with
                | .error e =>
                    { lockAcquired := true, ret := .error e, itemsAfter := items }
                | .ok task =>
                    { lockAcquired := true, ret := .ok task
                      itemsAfter := eraseKey items kv.1 })
          | none =>
              match watch with
              | .closed =>
                  { lockAcquired := true, ret := .error GoErr.queueEmpty
                    itemsAfter := items }
              | .delivered kv =>
                  (match unmarshal kv.2 with
                    | .error e =>
                        { lockAcquired := true, ret := .error e
                          itemsAfter := items ++ [kv] }
                    | .ok task =>
                        { lockAcquired := true, ret := .ok task
                          itemsAfter := eraseKey (items ++ [kv]) kv.1 })

theorem firstKV_eq_none (l : List QueueItem) (h : firstKV l = none) : l = [] := by
  cases l with
  | nil => rfl
  | cons x rest =>
      exfalso
      cases hr : firstKV rest with
      | none => simp [firstKV, hr] at h
      | some z =>
          simp only [firstKV, hr] at h
          split at h <;> exact Option.noConfusion h

theorem firstKV_min :
    ∀ (items : List QueueItem) (kv : QueueItem), firstKV items = some kv →
      kv ∈ items ∧ ∀ kv' ∈ items, kv.1 ≤ kv'.1 := by
  intro items
  induction items with
  | nil => intro kv h; simp [firstKV] at h
  | cons x rest ih =>
      intro kv h
      cases hrest : firstKV rest with
      | none =>
          have hnil : rest = [] := firstKV_eq_none rest hrest
          subst hnil
          have hx : x = kv := by simpa [firstKV] using h
          subst hx
          constructor
          · simp
          · intro kv' hkv'
            simp at hkv'
            simp [hkv']
      | some kvr =>
          rcases ih kvr hrest with ⟨hmem, hmin⟩
          simp only [firstKV, hrest] at h
          by_cases hlt : kvr.1 < x.1
          · rw [if_pos hlt] at h
            obtain rfl : kvr = kv := by simpa using h
            refine ⟨List.mem_cons_of_mem x hmem, ?_⟩
            intro kv' hkv'
            rcases List.mem_cons.mp hkv' with h1 | h1
            · subst h1; exact le_of_lt hlt
            · exact hmin kv' h1
          · rw [if_neg hlt] at h
            obtain rfl : x = kv := by simpa using h
            constructor
            · simp
            · intro kv' hkv'
              rcases List.mem_cons.mp hkv' with h1 | h1
              · subst h1; exact le_refl _
              · exact le_trans (not_lt.mp hlt) (hmin kv' h1)

/-- C6: a dequeue first takes the consumer lock (a lock failure returns
it with nothing read or deleted); with the lock held it reads the item
with the smallest key under `items/` — decoding it, deleting exactly
that key and returning the task; with no item it blocks on the watch
stream, consuming a delivered item the same way; and a stream that
closes without delivering fails with the QueueEmpty error, leaving the
range untouched. -/
theorem C6_dequeue :
    (∀ (e : GoErr) (getRes : Option GoErr) (items : List QueueItem)
        (watch : WatchResult) (um : String → Except GoErr notificationWrapper),
        Dequeue (some e) getRes items watch um
          = { lockAcquired := false, ret := .error e, itemsAfter := items }) ∧
    (∀ (items : List QueueItem) (kv : QueueItem) (watch : WatchResult)
        (um : String → Except GoErr notificationWrapper)
        (task : notificationWrapper),
        firstKV items = some kv → um kv.2 = .ok task →
        Dequeue none none items watch um
          = { lockAcquired := true, ret := .ok task
              itemsAfter := eraseKey items kv.1 } ∧
          kv ∈ items ∧ ∀ kv' ∈ items, kv.1 ≤ kv'.1) ∧
    (∀ (items : List QueueItem) (kv : QueueItem)
        (um : String → Except GoErr notificationWrapper)
        (task : notificationWrapper),
        firstKV items = none → um kv.2 = .ok task →
        Dequeue none none items (.delivered kv) um
          = { lockAcquired := true, ret := .ok task
              itemsAfter := eraseKey (items ++ [kv]) kv.1 }) ∧
    (∀ (items : List QueueItem)
        (um : String → Except GoErr notificationWrapper),
        firstKV items = none →
        Dequeue none none items .closed um
          = { lockAcquired := true, ret := .error GoErr.queueEmpty
              itemsAfter := items }) := by
  refine ⟨?_, ?_, ?_, ?_⟩
  · intro e getRes items watch um
    rfl
  · intro items kv watch um task hfirst hum
    refine ⟨?_, firstKV_min items kv hfirst⟩
    simp [Dequeue, hfirst, hum]
  · intro items kv um task hfirst hum
    simp [Dequeue, hfirst, hum]
  · intro items um hfirst
    simp [Dequeue, hfirst]

/-- Concrete queue example for the dequeue witness. -/
def taskQ : notificationWrapper :=
  { Service := svcDeb, Notification := { type := .webhook, payload := "w" }
    IsRecoveryMessage := false }

def umQ : String → Except GoErr notificationWrapper :=
  fun s => if s = "payload-a" then .ok taskQ else .error GoErr.decodeFailure

theorem C6_dequeue_witness :
    Dequeue none none [("items/a", "payload-a")] .closed umQ
      = { lockAcquired := true, ret := .ok taskQ
          itemsAfter := eraseKey [("items/a", "payload-a")] "items/a" } :=
  (C6_dequeue.2.1 [("items/a", "payload-a")] ("items/a", "payload-a") .closed
    umQ taskQ rfl (by simp [umQ])).1

/-! ## Service-config persistence: `memoryStorage` (appends to
`s.cfg.Services`) and `etcdStorage` (keyed put under `services/<id>`). -/

namespace memoryStorage

/-- `memoryStorage.SaveServiceConfig`:
`s.cfg.Services = append(s.cfg.Services, svc)`. -/
def SaveServiceConfig (services : List ServiceConfig) (svc : ServiceConfig) :
    List ServiceConfig :=
  services ++ [svc]

/-- `memoryStorage.DeleteServiceConfig`: remove the first config whose
id matches and return nil; return a "not found" error when none does. -/
def DeleteServiceConfig : List ServiceConfig → String →
    List ServiceConfig × Option GoErr
  | [], _ => ([], some (GoErr.other "not found"))
  | svc :: rest, id =>
      if svc.id = id then (rest, none)
      else
        let r := DeleteServiceConfig rest id
        (svc :: r.1, r.2)

/-- `memoryStorage.GetServiceConfig`: first config whose id matches. -/
def GetServiceConfig : List ServiceConfig → String → Except GoErr ServiceConfig
  | [], _ => .error (GoErr.other "not found")
  | svc :: rest, id => if svc.id = id then .ok svc else GetServiceConfig rest id

/-- `memoryStorage.GetServiceConfigs`: yields `s.cfg.Services` in order. -/
def GetServiceConfigs (services : List ServiceConfig) : List ServiceConfig :=
  services

end memoryStorage

/-- etcd `Put`: replace the value at a key in place, or append a new
pair. -/
def putKV : List (String × ServiceConfig) → String → ServiceConfig →
    List (String × ServiceConfig)
  | [], k, v => [(k, v)]
  | (k', v') :: rest, k, v =>
      if k' = k then (k, v) :: rest else (k', v') :: putKV rest k v

namespace etcdStorage

/-- `etcdStorage.SaveServiceConfig`: `Put` of the marshalled config
under `services/<id>` (keys are unique in etcd; a put on an existing
key replaces its value). -/
def SaveServiceConfig (kvs : List (String × ServiceConfig))
    (svc : ServiceConfig) : List (String × ServiceConfig) :=
  putKV kvs ("services/" ++ svc.id) svc

/-- `etcdStorage.DeleteServiceConfig`: etcd `Delete` of
`services/<id>`; absent a transport fault it never errors, whether or
not the key exists. -/
def DeleteServiceConfig (kvs : List (String × ServiceConfig)) (id : String) :
    List (String × ServiceConfig) × Option GoErr :=
  (kvs.filter (fun kv => kv.1 ≠ "services/" ++ id), none)

/-- `etcdStorage.GetServiceConfigs`: yields the values of the
`services/` range. -/
def GetServiceConfigs (kvs : List (String × ServiceConfig)) :
    List ServiceConfig :=
  kvs.map (fun kv => kv.2)

end etcdStorage

/-- Configs with the same id used in the duplicate-save examples. -/
def cfgA : ServiceConfig :=
  { id := "svc-1", token := "", timeout := 10, debounce := 0
    alertNotifications := [], recoveryNotifications := [] }

def cfgA2 : ServiceConfig :=
  { id := "svc-1", token := "tok", timeout := 20, debounce := 0
    alertNotifications := [], recoveryNotifications := [] }

/-- C7: saving two configs with the same id into the in-memory backend
appends rather than replaces — `GetServiceConfigs` then yields two
configs with id `"svc-1"`, violating the primary-key claim; the etcd
backend at the same input does replace, keeping a single config. -/
theorem C7_memory_append_duplicates :
    memoryStorage.GetServiceConfigs
        (memoryStorage.SaveServiceConfig
          (memoryStorage.SaveServiceConfig [] cfgA) cfgA2)
      = [cfgA, cfgA2] ∧
    (memoryStorage.GetServiceConfigs
        (memoryStorage.SaveServiceConfig
          (memoryStorage.SaveServiceConfig [] cfgA) cfgA2)).map ServiceConfig.id
      = ["svc-1", "svc-1"] ∧
    etcdStorage.GetServiceConfigs
        (etcdStorage.SaveServiceConfig
          (etcdStorage.SaveServiceConfig [] cfgA) cfgA2)
      = [cfgA2] := by
  refine ⟨rfl, rfl, ?_⟩
  simp [etcdStorage.SaveServiceConfig, etcdStorage.GetServiceConfigs, putKV,
    cfgA, cfgA2]

/-- C8 counterexample: deleting an id that is not stored fails in the
in-memory backend — the delete returns a "not found" error instead of
succeeding. -/
theorem C8_counterexample :
    (memoryStorage.DeleteServiceConfig [] "svc-1").2
      = some (GoErr.other "not found") := rfl

theorem memoryDelete_not_mem (l : List ServiceConfig) (id : String)
    (h : id ∉ l.map ServiceConfig.id) :
    memoryStorage.DeleteServiceConfig l id = (l, some (GoErr.other "not found")) := by
  induction l with
  | nil => rfl
  | cons svc rest ih =>
      have hne : svc.id ≠ id := by
        intro he
        exact h (by simp [he])
      have hrest : id ∉ rest.map ServiceConfig.id := by
        intro hm
        exact h (by simp [hm])
      simp [memoryStorage.DeleteServiceConfig, hne, ih hrest]

/-- C8 amended: the etcd backend's delete never errors and is
idempotent on the store for every id; the in-memory backend's delete
returns nil exactly when a config with the id is stored (the HTTP
layer maps its error to 404), and — on stores whose ids are unique —
deleting twice leaves the same state as deleting once. -/
theorem C8_delete_idempotent :
    (∀ (kvs : List (String × ServiceConfig)) (id : String),
        (etcdStorage.DeleteServiceConfig kvs id).2 = none ∧
        etcdStorage.DeleteServiceConfig
            (etcdStorage.DeleteServiceConfig kvs id).1 id
          = etcdStorage.DeleteServiceConfig kvs id) ∧
    (∀ (l : List ServiceConfig) (id : String),
        ((memoryStorage.DeleteServiceConfig l id).2 = none ↔
          id ∈ l.map ServiceConfig.id)) ∧
    (∀ (l : List ServiceConfig) (id : String),
        (l.map ServiceConfig.id).Nodup →
        (memoryStorage.DeleteServiceConfig
            (memoryStorage.DeleteServiceConfig l id).1 id).1
          = (memoryStorage.DeleteServiceConfig l id).1) := by
  refine ⟨?_, ?_, ?_⟩
  · intro kvs id
    refine ⟨rfl, ?_⟩
    simp only [etcdStorage.DeleteServiceConfig, Prod.mk.injEq]
    refine ⟨?_, trivial⟩
    induction kvs with
    | nil => rfl
    | cons kv rest ih =>
        by_cases h : kv.1 = "services/" ++ id
        · simp [h, ih]
        · simp [List.filter, h, ih]
  · intro l id
    induction l with
    | nil => simp [memoryStorage.DeleteServiceConfig]
    | cons svc rest ih =>
        by_cases h : svc.id = id
        · simp [memoryStorage.DeleteServiceConfig, h]
        · have h' : ¬ id = svc.id := fun he => h he.symm
          simp [memoryStorage.DeleteServiceConfig, h, h', ih]
  · intro l id hnodup
    induction l with
    | nil => rfl
    | cons svc rest ih =>
        by_cases h : svc.id = id
        · have hrest : id ∉ rest.map ServiceConfig.id := by
            have := hnodup
            simp at this
            intro hm
            rcases List.mem_map.mp hm with ⟨svc', hmem', hid'⟩
            exact (this.1 svc' hmem' (by rw [hid', ← h])).elim
          simp [memoryStorage.DeleteServiceConfig, h,
            memoryDelete_not_mem rest id hrest]
        · have hnodup' : (rest.map ServiceConfig.id).Nodup := by
            simp at hnodup
            exact hnodup.2
          simp [memoryStorage.DeleteServiceConfig, h, ih hnodup']

theorem C8_delete_idempotent_witness :
    etcdStorage.DeleteServiceConfig
        (etcdStorage.DeleteServiceConfig [("services/svc-1", cfgA)] "svc-1").1
        "svc-1"
      = etcdStorage.DeleteServiceConfig [("services/svc-1", cfgA)] "svc-1" ∧
    (memoryStorage.DeleteServiceConfig
        (memoryStorage.DeleteServiceConfig [cfgA] "svc-1").1 "svc-1").1
      = (memoryStorage.DeleteServiceConfig [cfgA] "svc-1").1 :=
  ⟨(C8_delete_idempotent.1 [("services/svc-1", cfgA)] "svc-1").2,
    C8_delete_idempotent.2.2 [cfgA] "svc-1" (by simp [cfgA])⟩
